import Mathlib

/-!
Verification of the next_pass overpass-prediction engine specification.

The repository provides two caller notebooks and a README; the engine itself
(AOI resolution, acquisition-plan parsing, geometry-time matching, next-pass
selection) is described by the specification.  The definitions below embed
that engine: geometry primitives over exact integer coordinates, the data
model (plan records, AOIs, per-satellite results), the matcher, the selector
and the result assembly, mirroring the notebook callers where their code is
available (shapely `box` construction, degenerate-box point handling, the
`find_next_overpass` result dictionary).
-/

namespace NextPass

/-- Modelled from the spec: a geographic point in WGS84 degrees (the engine's
geometry code is not in the repository snapshot; coordinates are exact
integers standing for the numeric coordinate values — the grid spacing is
immaterial to the claims and integers keep every geometric test
kernel-computable). -/
structure Pt where
  lon : ℤ
  lat : ℤ
deriving DecidableEq

/-- Cross product of vectors o→a and o→b; sign gives orientation. -/
def cross (o a b : Pt) : ℤ :=
  (a.lon - o.lon) * (b.lat - o.lat) - (a.lat - o.lat) * (b.lon - o.lon)

/-- Whether point p lies on the closed segment from a to b. -/
def onSegment (p a b : Pt) : Bool :=
  decide (cross a b p = 0) &&
  decide (min a.lon b.lon ≤ p.lon) && decide (p.lon ≤ max a.lon b.lon) &&
  decide (min a.lat b.lat ≤ p.lat) && decide (p.lat ≤ max a.lat b.lat)

/-- Whether the closed segments a–b and c–d intersect (properly, or by an
endpoint lying on the other segment). -/
def segsIntersect (a b c d : Pt) : Bool :=
  let d1 := cross c d a
  let d2 := cross c d b
  let d3 := cross a b c
  let d4 := cross a b d
  (((decide (0 < d1) && decide (d2 < 0)) || (decide (d1 < 0) && decide (0 < d2))) &&
   ((decide (0 < d3) && decide (d4 < 0)) || (decide (d3 < 0) && decide (0 < d4)))) ||
  onSegment a c d || onSegment b c d || onSegment c a b || onSegment d a b

/-- A polygon is a ring of vertices (closing edge implicit). -/
abbrev Polygon := List Pt

/-- The edge list of a polygon ring (each vertex paired with its successor,
wrapping around). -/
def edges (poly : Polygon) : List (Pt × Pt) :=
  poly.zip (poly.drop 1 ++ poly.take 1)

/-- Whether point p lies on the boundary of the polygon. -/
def onBoundary (p : Pt) (poly : Polygon) : Bool :=
  (edges poly).any (fun e => onSegment p e.1 e.2)

/-- Ray-casting test: whether the horizontal ray from p to the east crosses
the edge (used for the interior test); the usual division by the edge's
latitude span is written multiplicatively to stay in exact integers. -/
def rayCrosses (p a b : Pt) : Bool :=
  (decide (p.lat < a.lat) != decide (p.lat < b.lat)) &&
  (if a.lat < b.lat then
     decide ((p.lon - a.lon) * (b.lat - a.lat) < (b.lon - a.lon) * (p.lat - a.lat))
   else
     decide ((b.lon - a.lon) * (p.lat - a.lat) < (p.lon - a.lon) * (b.lat - a.lat)))

/-- Modelled from the spec: point-in-polygon with boundary inclusion
(ray-casting plus an explicit boundary test; the matcher's point-AOI test,
whose implementation is not in the repository snapshot). -/
def pointInPolygon (p : Pt) (poly : Polygon) : Bool :=
  onBoundary p poly ||
  ((edges poly).countP (fun e => rayCrosses p e.1 e.2)) % 2 == 1

/-- Modelled from the spec: standard polygon-overlap test — two simple
polygons intersect iff some pair of edges intersects or one contains a
vertex of the other; partial overlap qualifies, containment is not
required. -/
def polyIntersects (P Q : Polygon) : Bool :=
  (edges P).any (fun e => (edges Q).any (fun f => segsIntersect e.1 e.2 f.1 f.2)) ||
  P.any (fun v => pointInPolygon v Q) ||
  Q.any (fun v => pointInPolygon v P)

/-- A footprint is a polygon or multi-polygon (list of rings). -/
abbrev Footprint := List Polygon

/-- Orbital direction of a plan record. -/
inductive Direction where
  | ascending
  | descending
  | unspecified
deriving DecidableEq

/-- Modelled from the spec: one entry of a parsed acquisition plan
(the parsers are not in the repository snapshot). -/
structure PlanRecord where
  satellite_id : String
  direction : Direction
  footprint : Footprint
  window_start : ℤ
  window_end : ℤ
deriving DecidableEq

/-- Modelled from the spec: the canonical AOI — a point, or a union of
polygons (a bounding box materializes as one rectangle; a boundary file may
contribute several disjoint polygons). -/
inductive AOI where
  | point : Pt → AOI
  | area : List Polygon → AOI
deriving DecidableEq

/-- Modelled from the spec: whether a footprint intersects the AOI — a point
AOI uses point-in-polygon with boundary inclusion; an area AOI (union of
polygons) uses polygon overlap against any constituent. -/
def footprintIntersectsAOI (fp : Footprint) (aoi : AOI) : Bool :=
  match aoi with
  | .point p => fp.any (fun poly => pointInPolygon p poly)
  | .area ps => ps.any (fun q => fp.any (fun poly => polyIntersects poly q))

/-- Modelled from the spec: the Geometry-Time Matcher —
`matchesRecord record aoi t` is true iff the record's window end is at or after
the reference instant and its footprint intersects the AOI. -/
def matchesRecord (r : PlanRecord) (aoi : AOI) (t : ℤ) : Bool :=
  decide (t ≤ r.window_end) && footprintIntersectsAOI r.footprint aoi

/-- Modelled from the spec: the records the Matcher lets through. -/
def matchedRecords (recs : List PlanRecord) (aoi : AOI) (t : ℤ) : List PlanRecord :=
  recs.filter (fun r => matchesRecord r aoi t)

/-- The rectangle polygon shapely's `box lon_min lat_min lon_max lat_max`
builds, as the notebooks construct it (counter-clockwise from the south-east
corner). -/
def boxPolygon (w s e n : ℤ) : Polygon :=
  [⟨e, s⟩, ⟨e, n⟩, ⟨w, n⟩, ⟨w, s⟩]

/-- Bounds of a geometry: (west, south, east, north), as shapely's
`bounds = (minx, miny, maxx, maxy)`. -/
structure Bounds where
  west : ℤ
  south : ℤ
  east : ℤ
  north : ℤ
deriving DecidableEq

/-- Bounds of a polygon: component-wise min/max over the vertices
(the empty polygon gets a zero box). -/
def polyBounds : Polygon → Bounds
  | [] => ⟨0, 0, 0, 0⟩
  | p :: ps =>
    ps.foldl (fun b q => ⟨min b.west q.lon, min b.south q.lat,
                          max b.east q.lon, max b.north q.lat⟩)
      ⟨p.lon, p.lat, p.lon, p.lat⟩

/-- Latitude range check. -/
def latOK (x : ℤ) : Bool := decide (-90 ≤ x) && decide (x ≤ 90)

/-- Longitude range check. -/
def lonOK (x : ℤ) : Bool := decide (-180 ≤ x) && decide (x ≤ 180)

/-- The three AOI input forms: a point, an SNWE bounding box, or a path to a
boundary file. -/
inductive AOIInput where
  | point (lat lon : ℤ)
  | bbox (south north west east : ℤ)
  | file (path : String)

/-- Modelled from the spec: the AOI Resolver (not in the repository
snapshot).  Coordinates outside latitude [-90, 90] or longitude [-180, 180]
and missing, unparsable or empty boundary files are rejected with a
descriptive InvalidAOI error; a degenerate box (south = north and
west = east) resolves to a Point AOI as in the notebook's
`Point(lon_E, lat_N)` branch; a proper box materializes as the shapely
rectangle `box lon_min lat_min lon_max lat_max`; a boundary file resolves to
the union of its polygons.  The file system is an explicit map from paths to
parsed contents (`none` = missing or unparsable). -/
def resolveAOI : AOIInput → (String → Option (List Polygon)) → Except String AOI
  | .point lat lon, _ =>
    if latOK lat && lonOK lon then .ok (.point ⟨lon, lat⟩)
    else .error "InvalidAOI: coordinate out of range"
  | .bbox s n w e, _ =>
    if latOK s && latOK n && lonOK w && lonOK e then
      if s = n ∧ w = e then .ok (.point ⟨e, n⟩)
      else .ok (.area [boxPolygon w s e n])
    else .error "InvalidAOI: coordinate out of range"
  | .file path, files =>
    match files path with
    | none => .error "InvalidAOI: boundary file missing or unparsable"
    | some [] => .error "InvalidAOI: empty boundary file"
    | some polys => .ok (.area polys)

instance {ε α : Type} [DecidableEq ε] [DecidableEq α] : DecidableEq (Except ε α) := fun a b =>
  match a, b with
  | .error e, .error f =>
    if h : e = f then isTrue (by rw [h])
    else isFalse (by simp only [Except.error.injEq]; exact h)
  | .ok x, .ok y =>
    if h : x = y then isTrue (by rw [h])
    else isFalse (by simp only [Except.ok.injEq]; exact h)
  | .error _, .ok _ => isFalse (fun h => Except.noConfusion h)
  | .ok _, .error _ => isFalse (fun h => Except.noConfusion h)

/-- Modelled from the spec: strict preference order of the Next-Pass
Selector — candidate c beats the current best iff it starts earlier, or
starts at the same instant and ends earlier.  Ties on both keep the current
(earlier-in-input) record. -/
def betterPass (best c : PlanRecord) : Bool :=
  decide (c.window_start < best.window_start) ||
  (decide (c.window_start = best.window_start) &&
   decide (c.window_end < best.window_end))

/-- Left-to-right scan keeping the preferred record. -/
def selectFrom (best : PlanRecord) : List PlanRecord → PlanRecord
  | [] => best
  | c :: rs => selectFrom (if betterPass best c then c else best) rs

/-- Modelled from the spec: the Next-Pass Selector on one group of matched
records — earliest `window_start`, ties broken by smallest `window_end`,
then by input order; `none` on an empty group. -/
def selectNext : List PlanRecord → Option PlanRecord
  | [] => none
  | r :: rs => some (selectFrom r rs)

/-- The undetermined marker for an empty satellite/direction group. -/
def noPassMsg : String := "no qualifying pass found within horizon"

/-- Human-readable name of a direction. -/
def dirName : Direction → String
  | .ascending => "ascending"
  | .descending => "descending"
  | .unspecified => "all"

/-- Modelled from the spec: one summary line for a selected pass (satellite,
direction, pass time). -/
def describe (r : PlanRecord) : String :=
  "Next " ++ r.satellite_id ++ " pass (" ++ dirName r.direction ++ ") at t=" ++
  toString r.window_start

/-- Modelled from the spec: one entry of an OverpassResult per
satellite/direction group — the group's direction, the selected record if
any, and the explicit textual mark (summary line, or the undetermined
message when the group is empty). -/
structure GroupResult where
  direction : Direction
  selected : Option PlanRecord
  mark : String
deriving DecidableEq

/-- Builds the group entry with its explicit mark. -/
def mkGroupResult (d : Direction) (sel : Option PlanRecord) : GroupResult :=
  { direction := d, selected := sel,
    mark := match sel with
            | some r => describe r
            | none => noPassMsg }

/-- Modelled from the spec: the direction groups queried per satellite —
Landsat reports ascending before descending; Sentinel has one implicit
group. -/
def directionsFor (sat : String) : List Direction :=
  if sat = "landsat" then [.ascending, .descending] else [.unspecified]

/-- The matched records belonging to one direction group (the implicit
`unspecified` group holds all matched records). -/
def groupRecords (matched : List PlanRecord) (d : Direction) : List PlanRecord :=
  match d with
  | .unspecified => matched
  | _ => matched.filter (fun r => r.direction = d)

/-- Modelled from the spec: a raw acquisition-plan document as the parser
sees it — a list of features, each recoverable to a plan record or
malformed (`none`, skipped with a recorded skip count). -/
abbrev PlanDoc := List (Option PlanRecord)

/-- Modelled from the spec: tolerant parse of a plan document — malformed
features are skipped; the parse fails fatally only when zero records are
recoverable. -/
def parsePlan (doc : PlanDoc) : Except String (List PlanRecord) :=
  let recs := doc.filterMap id
  if recs.isEmpty then .error "PlanParseError: no usable records" else .ok recs

/-- Modelled from the spec: the per-satellite value of the
`find_next_overpass` result dictionary.  The `next_collect_info` and
`next_collect_geometry` keys may be absent (`none`), e.g. when the
satellite's plan fails to parse; callers retrieve them with a default. -/
structure SatResult where
  groups : List GroupResult
  err : Option String
  next_collect_info : Option (List String)
  next_collect_geometry : Option (List Footprint)
deriving DecidableEq

/-- Modelled from the spec: one satellite's pipeline — parse the plan,
match against the AOI at the reference instant, select per direction group,
and assemble the index-aligned summary lines and footprint geometries
(one line and one geometry per selected pass, in group order); empty groups
keep an explicitly marked entry.  A fatal parse error is isolated into the
per-satellite entry with both collect keys absent. -/
def satResult (sat : String) (doc : PlanDoc) (aoi : AOI) (t : ℤ) : SatResult :=
  match parsePlan doc with
  | .error msg =>
    { groups := [], err := some msg,
      next_collect_info := none, next_collect_geometry := none }
  | .ok recs =>
    let matched := matchedRecords recs aoi t
    let gs := (directionsFor sat).map
      (fun d => mkGroupResult d (selectNext (groupRecords matched d)))
    let sel := gs.filterMap (fun g => g.selected)
    { groups := gs, err := none,
      next_collect_info := some (sel.map describe),
      next_collect_geometry := some (sel.map (fun r => r.footprint)) }

/-- Modelled from the spec: `find_next_overpass` over the requested
satellites — a result map keyed by satellite identifier, each satellite's
pipeline run independently on its own cached plan document. -/
def findNextOverpass (sats : List String) (docs : String → PlanDoc)
    (aoi : AOI) (t : ℤ) : List (String × SatResult) :=
  sats.map (fun s => (s, satResult s (docs s) aoi t))

/-- Lookup of one satellite's entry in the result map. -/
def resultFor (res : List (String × SatResult)) (s : String) : Option SatResult :=
  (res.find? (fun p => p.1 == s)).map Prod.snd

/-- Modelled from the spec: the full pipeline with the reference instant as
an explicit parameter whose documented default is the current UTC time —
the system clock enters only as that default, never inside nested
functions. -/
def findNextOverpassAt (sats : List String) (docs : String → PlanDoc)
    (aoi : AOI) (refInstant : Option ℤ) (systemClockNow : ℤ) :
    List (String × SatResult) :=
  findNextOverpass sats docs aoi (refInstant.getD systemClockNow)

/-- Strict lexicographic order on (window_start, window_end): r strictly
precedes x. -/
def passLt (r x : PlanRecord) : Prop :=
  r.window_start < x.window_start ∨
  (r.window_start = x.window_start ∧ r.window_end < x.window_end)

/-- Lexicographic order on (window_start, window_end): r weakly precedes x. -/
def passLe (r x : PlanRecord) : Prop :=
  r.window_start < x.window_start ∨
  (r.window_start = x.window_start ∧ r.window_end ≤ x.window_end)

/-- Whether x carries the same (window_start, window_end) pair as r. -/
def sameKey (r x : PlanRecord) : Bool :=
  decide (x.window_start = r.window_start ∧ x.window_end = r.window_end)

/-- Sample square footprint for concrete checks. -/
def sampleSq : Polygon := boxPolygon 0 0 4 4

/-- Sample square footprint disjoint from `sampleSq`. -/
def sampleSqFar : Polygon := boxPolygon 10 0 14 4

/-- Sample plan record over `sampleSq`, window [5, 7]. -/
def sampleRec1 : PlanRecord :=
  { satellite_id := "sentinel-1", direction := .unspecified,
    footprint := [sampleSq], window_start := 5, window_end := 7 }

/-- Sample plan record over `sampleSq`, window [5, 6]. -/
def sampleRec2 : PlanRecord :=
  { satellite_id := "sentinel-1", direction := .unspecified,
    footprint := [sampleSq], window_start := 5, window_end := 6 }

/-- Sample plan record over `sampleSqFar`, window [5, 6] (ties with
`sampleRec2` on both window fields). -/
def sampleRec3 : PlanRecord :=
  { satellite_id := "sentinel-1", direction := .unspecified,
    footprint := [sampleSqFar], window_start := 5, window_end := 6 }

/-- Sample footprint overlapping `sampleSqFar` but not `sampleSq`. -/
def sampleFpB : Footprint := [boxPolygon 12 2 16 6]

/-- Sample plan record whose footprint overlaps only `sampleSqFar`. -/
def sampleRecB : PlanRecord :=
  { satellite_id := "sentinel-1", direction := .unspecified,
    footprint := sampleFpB, window_start := 5, window_end := 7 }

theorem betterPass_eq_true {b c : PlanRecord} (h : betterPass b c = true) :
    passLt c b := by
  simp only [betterPass, Bool.or_eq_true, Bool.and_eq_true, decide_eq_true_eq] at h
  unfold passLt
  omega

theorem betterPass_eq_false {b c : PlanRecord} (h : betterPass b c = false) :
    passLe b c := by
  simp only [betterPass, Bool.or_eq_false_iff, Bool.and_eq_false_iff,
    decide_eq_false_iff_not] at h
  unfold passLe
  omega

theorem passLe_trans {a b c : PlanRecord} (h1 : passLe a b) (h2 : passLe b c) :
    passLe a c := by
  unfold passLe at *
  omega

theorem passLt_le {a b : PlanRecord} (h : passLt a b) : passLe a b := by
  unfold passLt at h
  unfold passLe
  omega

theorem passLe_of_lt_of_le {a b c : PlanRecord} (h1 : passLt a b)
    (h2 : passLe b c) : passLe a c := by
  unfold passLt at h1
  unfold passLe at *
  omega

theorem selectFrom_mem (b : PlanRecord) (l : List PlanRecord) :
    selectFrom b l = b ∨ selectFrom b l ∈ l := by
  induction l generalizing b with
  | nil => left; rfl
  | cons c rs ih =>
    simp only [selectFrom]
    by_cases hb : betterPass b c
    · rw [if_pos hb]
      rcases ih c with h | h
      · right; rw [h]; exact List.mem_cons_self c rs
      · right; exact List.mem_cons_of_mem c h
    · rw [if_neg hb]
      rcases ih b with h | h
      · left; exact h
      · right; exact List.mem_cons_of_mem c h

theorem selectFrom_le (b : PlanRecord) (l : List PlanRecord) :
    passLe (selectFrom b l) b ∧ ∀ x ∈ l, passLe (selectFrom b l) x := by
  induction l generalizing b with
  | nil =>
    refine ⟨?_, by simp⟩
    simp only [selectFrom]
    unfold passLe; omega
  | cons c rs ih =>
    simp only [selectFrom]
    by_cases hb : betterPass b c
    · rw [if_pos hb]
      have hcb : passLt c b := betterPass_eq_true hb
      obtain ⟨h1, h2⟩ := ih c
      refine ⟨passLe_trans h1 (passLt_le hcb), ?_⟩
      intro x hx
      rcases List.mem_cons.mp hx with rfl | hx
      · exact h1
      · exact h2 x hx
    · rw [if_neg hb]
      have hbc : passLe b c := betterPass_eq_false (Bool.eq_false_iff.mpr hb ▸ rfl)
      obtain ⟨h1, h2⟩ := ih b
      refine ⟨h1, ?_⟩
      intro x hx
      rcases List.mem_cons.mp hx with rfl | hx
      · exact passLe_trans h1 hbc
      · exact h2 x hx

theorem selectFrom_eq_of_key_eq (b : PlanRecord) (l : List PlanRecord)
    (hs : (selectFrom b l).window_start = b.window_start)
    (he : (selectFrom b l).window_end = b.window_end) :
    selectFrom b l = b := by
  induction l generalizing b with
  | nil => rfl
  | cons c rs ih =>
    simp only [selectFrom] at *
    by_cases hb : betterPass b c
    · rw [if_pos hb] at hs he ⊢
      exfalso
      have hcb : passLt c b := betterPass_eq_true hb
      have h1 : passLe (selectFrom c rs) c := (selectFrom_le c rs).1
      unfold passLt at hcb
      unfold passLe at h1
      omega
    · rw [if_neg hb] at hs he ⊢
      exact ih b hs he

theorem selectFrom_find (b : PlanRecord) (l : List PlanRecord)
    (h : passLt (selectFrom b l) b) :
    l.find? (sameKey (selectFrom b l)) = some (selectFrom b l) := by
  induction l generalizing b with
  | nil =>
    exfalso
    simp only [selectFrom] at h
    unfold passLt at h
    omega
  | cons c rs ih =>
    simp only [selectFrom] at h ⊢
    by_cases hb : betterPass b c
    · rw [if_pos hb] at h ⊢
      by_cases hkey : (selectFrom c rs).window_start = c.window_start ∧
          (selectFrom c rs).window_end = c.window_end
      · have heq : selectFrom c rs = c := selectFrom_eq_of_key_eq c rs hkey.1 hkey.2
        rw [List.find?_cons_of_pos]
        · rw [heq]
        · simp only [sameKey, decide_eq_true_eq]
          exact ⟨hkey.1.symm, hkey.2.symm⟩
      · have hle : passLe (selectFrom c rs) c := (selectFrom_le c rs).1
        have hlt : passLt (selectFrom c rs) c := by
          unfold passLe at hle
          unfold passLt
          omega
        rw [List.find?_cons_of_neg]
        · exact ih c hlt
        · simp only [sameKey, decide_eq_true_eq]
          intro hc
          exact hkey ⟨hc.1.symm, hc.2.symm⟩
    · rw [if_neg hb] at h ⊢
      have hbc : passLe b c := betterPass_eq_false (Bool.eq_false_iff.mpr hb ▸ rfl)
      have hlt : passLt (selectFrom b rs) c := by
        unfold passLt at h ⊢
        unfold passLe at hbc
        omega
      rw [List.find?_cons_of_neg]
      · exact ih b h
      · simp only [sameKey, decide_eq_true_eq]
        intro hc
        unfold passLt at hlt
        omega

theorem resultFor_map (sats : List String) (f : String → SatResult) (s : String) :
    resultFor (sats.map (fun x => (x, f x))) s =
      if s ∈ sats then some (f s) else none := by
  induction sats with
  | nil => simp [resultFor]
  | cons x rest ih =>
    by_cases hxs : x = s
    · subst hxs
      simp only [List.map_cons, resultFor]
      rw [List.find?_cons_of_pos _ (by simp)]
      simp
    · simp only [resultFor] at ih
      simp only [List.map_cons, resultFor]
      rw [List.find?_cons_of_neg _ (by simpa using hxs)]
      rw [ih]
      by_cases hm : s ∈ rest
      · rw [if_pos hm, if_pos (List.mem_cons_of_mem x hm)]
      · rw [if_neg hm, if_neg (by
          intro hc
          rcases List.mem_cons.mp hc with rfl | hc2
          · exact hxs rfl
          · exact hm hc2)]

theorem resolveAOI_point_eq (lat lon : ℤ)
    (files : String → Option (List Polygon)) :
    resolveAOI (.point lat lon) files =
      if latOK lat && lonOK lon then .ok (.point ⟨lon, lat⟩)
      else .error "InvalidAOI: coordinate out of range" := rfl

theorem resolveAOI_bbox_eq (s n w e : ℤ)
    (files : String → Option (List Polygon)) :
    resolveAOI (.bbox s n w e) files =
      if latOK s && latOK n && lonOK w && lonOK e then
        if s = n ∧ w = e then .ok (.point ⟨e, n⟩)
        else .ok (.area [boxPolygon w s e n])
      else .error "InvalidAOI: coordinate out of range" := rfl

theorem resolveAOI_file_eq (path : String)
    (files : String → Option (List Polygon)) :
    resolveAOI (.file path) files =
      match files path with
      | none => .error "InvalidAOI: boundary file missing or unparsable"
      | some [] => .error "InvalidAOI: empty boundary file"
      | some polys => .ok (.area polys) := rfl

/-- C1: the Geometry-Time Matcher is a pure boolean filter: it returns true
iff the record's time window ends at or after the reference instant and its
footprint intersects the AOI — point-in-polygon for a point AOI, polygon
overlap (partial overlap suffices) against any constituent for an area AOI —
and every record it lets through satisfies both conjuncts. -/
theorem matcher_pure_filter :
    (∀ (r : PlanRecord) (aoi : AOI) (t : ℤ),
      matchesRecord r aoi t = true ↔
        (t ≤ r.window_end ∧ footprintIntersectsAOI r.footprint aoi = true)) ∧
    (∀ (fp : Footprint) (p : Pt),
      footprintIntersectsAOI fp (.point p) =
        fp.any (fun poly => pointInPolygon p poly)) ∧
    (∀ (fp : Footprint) (ps : List Polygon),
      footprintIntersectsAOI fp (.area ps) =
        ps.any (fun q => fp.any (fun poly => polyIntersects poly q))) ∧
    (∀ (recs : List PlanRecord) (aoi : AOI) (t : ℤ) (r : PlanRecord),
      r ∈ matchedRecords recs aoi t →
        t ≤ r.window_end ∧ footprintIntersectsAOI r.footprint aoi = true) := by
  refine ⟨?_, fun _ _ => rfl, fun _ _ => rfl, ?_⟩
  · intro r aoi t
    simp [matchesRecord, Bool.and_eq_true, decide_eq_true_eq]
  · intro recs aoi t r hr
    have hmr := (List.mem_filter.mp hr).2
    simp only [matchesRecord, Bool.and_eq_true, decide_eq_true_eq] at hmr
    exact hmr

theorem matcher_pure_filter_witness :
    sampleRec1 ∈ matchedRecords [sampleRec1, sampleRec3] (.point ⟨2, 2⟩) 6 ∧
    ((6 : ℤ) ≤ sampleRec1.window_end ∧
     footprintIntersectsAOI sampleRec1.footprint (.point ⟨2, 2⟩) = true) :=
  ⟨by decide,
   matcher_pure_filter.2.2.2 [sampleRec1, sampleRec3] (.point ⟨2, 2⟩) 6
     sampleRec1 (by decide)⟩

/-- C2: on any non-empty group the Next-Pass Selector returns a member of
the group with minimal window_start; among records tied on window_start it
has minimal window_end; and the first record of the group carrying the
selected (window_start, window_end) pair is the selected record itself, so
ties on both fields resolve to the earliest in input order and the
selection is deterministic. -/
theorem selector_earliest_deterministic (l : List PlanRecord) (r : PlanRecord)
    (h : selectNext l = some r) :
    r ∈ l ∧
    (∀ x ∈ l, r.window_start ≤ x.window_start) ∧
    (∀ x ∈ l, x.window_start = r.window_start → r.window_end ≤ x.window_end) ∧
    l.find? (sameKey r) = some r := by
  rcases l with _ | ⟨b, rs⟩
  · exact absurd h (by simp [selectNext])
  · simp only [selectNext, Option.some.injEq] at h
    subst h
    have hmem := selectFrom_mem b rs
    have hle := selectFrom_le b rs
    have hall : ∀ x ∈ b :: rs, passLe (selectFrom b rs) x := by
      intro x hx
      rcases List.mem_cons.mp hx with rfl | hx
      · exact hle.1
      · exact hle.2 x hx
    refine ⟨?_, ?_, ?_, ?_⟩
    · rcases hmem with h | h
      · rw [h]; exact List.mem_cons_self b rs
      · exact List.mem_cons_of_mem b h
    · intro x hx
      have hp := hall x hx
      unfold passLe at hp; omega
    · intro x hx hxs
      have hp := hall x hx
      unfold passLe at hp; omega
    · by_cases hkey : (selectFrom b rs).window_start = b.window_start ∧
          (selectFrom b rs).window_end = b.window_end
      · have heq := selectFrom_eq_of_key_eq b rs hkey.1 hkey.2
        rw [List.find?_cons_of_pos _ (by
          simp only [sameKey, decide_eq_true_eq]
          exact ⟨hkey.1.symm, hkey.2.symm⟩)]
        rw [heq]
      · have hlt : passLt (selectFrom b rs) b := by
          have hp := hle.1
          unfold passLe at hp
          unfold passLt
          omega
        rw [List.find?_cons_of_neg _ (by
          simp only [sameKey, decide_eq_true_eq]
          intro hc
          exact hkey ⟨hc.1.symm, hc.2.symm⟩)]
        exact selectFrom_find b rs hlt

theorem selector_earliest_deterministic_witness :
    selectNext [sampleRec1, sampleRec2, sampleRec3] = some sampleRec2 ∧
    [sampleRec1, sampleRec2, sampleRec3].find? (sameKey sampleRec2) =
      some sampleRec2 :=
  ⟨by decide,
   (selector_earliest_deterministic [sampleRec1, sampleRec2, sampleRec3]
     sampleRec2 (by decide)).2.2.2⟩

/-- C3: when a satellite/direction group has no qualifying matched record,
the result still contains an entry for that group, explicitly marked with
the undetermined message "no qualifying pass found within horizon" rather
than being omitted (the pipeline is a total function, so no exception is
raised); and each satellite's entry in the result map depends only on that
satellite's own plan document, so other satellites' results are
unaffected. -/
theorem empty_group_marked_and_isolated :
    (∀ (sat : String) (doc : PlanDoc) (aoi : AOI) (t : ℤ) (d : Direction)
       (recs : List PlanRecord),
      parsePlan doc = .ok recs →
      d ∈ directionsFor sat →
      groupRecords (matchedRecords recs aoi t) d = [] →
      ∃ g ∈ (satResult sat doc aoi t).groups,
        g.direction = d ∧ g.selected = none ∧ g.mark = noPassMsg) ∧
    (∀ (sats : List String) (docs1 docs2 : String → PlanDoc) (aoi : AOI)
       (t : ℤ) (s : String),
      docs1 s = docs2 s →
      resultFor (findNextOverpass sats docs1 aoi t) s =
        resultFor (findNextOverpass sats docs2 aoi t) s) := by
  constructor
  · intro sat doc aoi t d recs hp hd hempty
    refine ⟨mkGroupResult d
      (selectNext (groupRecords (matchedRecords recs aoi t) d)), ?_, rfl, ?_, ?_⟩
    · simp only [satResult, hp]
      exact List.mem_map_of_mem _ hd
    · rw [hempty]; rfl
    · rw [hempty]; rfl
  · intro sats docs1 docs2 aoi t s hdoc
    unfold findNextOverpass
    rw [resultFor_map, resultFor_map]
    by_cases hm : s ∈ sats
    · rw [if_pos hm, if_pos hm, hdoc]
    · rw [if_neg hm, if_neg hm]

theorem empty_group_marked_and_isolated_witness :
    parsePlan [some sampleRec1] = .ok [sampleRec1] ∧
    Direction.ascending ∈ directionsFor "landsat" ∧
    groupRecords (matchedRecords [sampleRec1] (.point ⟨100, 50⟩) 0)
      .ascending = [] ∧
    (∃ g ∈ (satResult "landsat" [some sampleRec1] (.point ⟨100, 50⟩) 0).groups,
      g.direction = .ascending ∧ g.selected = none ∧ g.mark = noPassMsg) :=
  ⟨by decide, by decide, by decide,
   empty_group_marked_and_isolated.1 "landsat" [some sampleRec1]
     (.point ⟨100, 50⟩) 0 .ascending [sampleRec1]
     (by decide) (by decide) (by decide)⟩

/-- C4: for every valid bounding box (coordinates in range, south < north,
west < east) the AOI Resolver produces the rectangle polygon
`box lon_min lat_min lon_max lat_max`, and that polygon's bounds
(west, south, east, north) are exactly the input box. -/
theorem bbox_bounds_roundtrip (s n w e : ℤ)
    (files : String → Option (List Polygon))
    (hs : latOK s = true) (hn : latOK n = true) (hw : lonOK w = true)
    (he : lonOK e = true) (hsn : s < n) (hwe : w < e) :
    resolveAOI (.bbox s n w e) files = .ok (.area [boxPolygon w s e n]) ∧
    polyBounds (boxPolygon w s e n) = ⟨w, s, e, n⟩ := by
  constructor
  · rw [resolveAOI_bbox_eq, if_pos (by simp [hs, hn, hw, he]), if_neg (by omega)]
  · simp only [polyBounds, boxPolygon, List.foldl, Bounds.mk.injEq]
    refine ⟨?_, ?_, ?_, ?_⟩ <;> omega

theorem bbox_bounds_roundtrip_witness :
    (latOK 34 = true ∧ latOK 35 = true ∧ lonOK (-119) = true ∧
     lonOK (-117) = true ∧ (34 : ℤ) < 35 ∧ (-119 : ℤ) < -117) ∧
    (resolveAOI (.bbox 34 35 (-119) (-117)) (fun _ => none) =
       .ok (.area [boxPolygon (-119) 34 (-117) 35]) ∧
     polyBounds (boxPolygon (-119) 34 (-117) 35) = ⟨-119, 34, -117, 35⟩) :=
  ⟨by decide,
   bbox_bounds_roundtrip 34 35 (-119) (-117) (fun _ => none)
     (by decide) (by decide) (by decide) (by decide) (by decide) (by decide)⟩

/-- C5: a degenerate bounding box (south = north and west = east, both in
range) resolves to a Point AOI — not a zero-area polygon — and matching
against a point AOI is point-in-polygon on the footprint (with boundary
inclusion: any point on a polygon's boundary passes the test), not area
intersection. -/
theorem degenerate_bbox_point_aoi (s n w e : ℤ)
    (files : String → Option (List Polygon))
    (hs : latOK s = true) (hn : latOK n = true) (hw : lonOK w = true)
    (he : lonOK e = true) (hsn : s = n) (hwe : w = e) :
    resolveAOI (.bbox s n w e) files = .ok (.point ⟨e, n⟩) ∧
    (∀ (r : PlanRecord) (t : ℤ),
      matchesRecord r (.point ⟨e, n⟩) t =
        (decide (t ≤ r.window_end) &&
         r.footprint.any (fun poly => pointInPolygon ⟨e, n⟩ poly))) ∧
    (∀ (p : Pt) (poly : Polygon),
      onBoundary p poly = true → pointInPolygon p poly = true) := by
  refine ⟨?_, fun r t => rfl, ?_⟩
  · rw [resolveAOI_bbox_eq, if_pos (by simp [hs, hn, hw, he]), if_pos ⟨hsn, hwe⟩]
  · intro p poly h
    simp [pointInPolygon, h]

theorem degenerate_bbox_point_aoi_witness :
    ((34 : ℤ) = 34 ∧ (-119 : ℤ) = -119) ∧
    (resolveAOI (.bbox 34 34 (-119) (-119)) (fun _ => none) =
       .ok (.point ⟨-119, 34⟩) ∧
     onBoundary ⟨0, 2⟩ sampleSq = true ∧
     pointInPolygon ⟨0, 2⟩ sampleSq = true) :=
  ⟨⟨rfl, rfl⟩,
   (degenerate_bbox_point_aoi 34 34 (-119) (-119) (fun _ => none)
     (by decide) (by decide) (by decide) (by decide) rfl rfl).1,
   by decide,
   (degenerate_bbox_point_aoi 34 34 (-119) (-119) (fun _ => none)
     (by decide) (by decide) (by decide) (by decide) rfl rfl).2.2
     ⟨0, 2⟩ sampleSq (by decide)⟩

/-- C6: in every successfully parsed per-satellite result, the summary
lines and the footprint geometries are two maps over the same ordered list
of selected records (one entry per selected pass, groups in declaration
order, ascending before descending for Landsat), so they have equal length,
the i-th line describes the record whose footprint is the i-th geometry,
and zipping the two sequences pairs each line with its own geometry. -/
theorem summary_geometry_aligned (sat : String) (doc : PlanDoc) (aoi : AOI)
    (t : ℤ) (recs : List PlanRecord) (h : parsePlan doc = .ok recs) :
    ∃ sel : List PlanRecord,
      sel = (satResult sat doc aoi t).groups.filterMap (fun g => g.selected) ∧
      (satResult sat doc aoi t).next_collect_info = some (sel.map describe) ∧
      (satResult sat doc aoi t).next_collect_geometry =
        some (sel.map (fun r => r.footprint)) ∧
      (sel.map describe).length = (sel.map (fun r => r.footprint)).length ∧
      (sel.map describe).zip (sel.map (fun r => r.footprint)) =
        sel.map (fun r => (describe r, r.footprint)) ∧
      (satResult sat doc aoi t).groups.map (fun g => g.direction) =
        directionsFor sat := by
  refine ⟨(satResult sat doc aoi t).groups.filterMap (fun g => g.selected),
    rfl, ?_, ?_, by simp, List.zip_map' _ _ _, ?_⟩
  · simp only [satResult, h]
  · simp only [satResult, h]
  · simp only [satResult, h, List.map_map]
    have hcomp : ((fun g : GroupResult => g.direction) ∘ fun d =>
        mkGroupResult d
          (selectNext (groupRecords (matchedRecords recs aoi t) d))) =
        fun d => d := rfl
    rw [hcomp]
    exact List.map_id _

theorem summary_geometry_aligned_witness :
    parsePlan [some sampleRec1] = .ok [sampleRec1] ∧
    (∃ sel : List PlanRecord,
      sel = (satResult "sentinel-1" [some sampleRec1] (.area [sampleSq])
        0).groups.filterMap (fun g => g.selected) ∧
      (satResult "sentinel-1" [some sampleRec1] (.area [sampleSq])
        0).next_collect_info = some (sel.map describe) ∧
      (satResult "sentinel-1" [some sampleRec1] (.area [sampleSq])
        0).next_collect_geometry = some (sel.map (fun r => r.footprint)) ∧
      (sel.map describe).length = (sel.map (fun r => r.footprint)).length ∧
      (sel.map describe).zip (sel.map (fun r => r.footprint)) =
        sel.map (fun r => (describe r, r.footprint)) ∧
      (satResult "sentinel-1" [some sampleRec1] (.area [sampleSq])
        0).groups.map (fun g => g.direction) = directionsFor "sentinel-1") :=
  ⟨by decide,
   summary_geometry_aligned "sentinel-1" [some sampleRec1] (.area [sampleSq])
     0 [sampleRec1] (by decide)⟩

/-- C7: the AOI Resolver rejects any point or bounding-box input with a
latitude outside [-90, 90] or a longitude outside [-180, 180], and any
boundary-file path that is missing/unparsable or parses to nothing, with a
descriptive InvalidAOI error — an `Except.error`, so no AOI is produced. -/
theorem invalid_aoi_rejected :
    (∀ (lat lon : ℤ) (files : String → Option (List Polygon)),
      (lat < -90 ∨ 90 < lat ∨ lon < -180 ∨ 180 < lon) →
      ∃ msg, resolveAOI (.point lat lon) files = .error msg) ∧
    (∀ (s n w e : ℤ) (files : String → Option (List Polygon)),
      (s < -90 ∨ 90 < s ∨ n < -90 ∨ 90 < n ∨
       w < -180 ∨ 180 < w ∨ e < -180 ∨ 180 < e) →
      ∃ msg, resolveAOI (.bbox s n w e) files = .error msg) ∧
    (∀ (path : String) (files : String → Option (List Polygon)),
      files path = none →
      ∃ msg, resolveAOI (.file path) files = .error msg) ∧
    (∀ (path : String) (files : String → Option (List Polygon)),
      files path = some [] →
      ∃ msg, resolveAOI (.file path) files = .error msg) := by
  refine ⟨?_, ?_, ?_, ?_⟩
  · intro lat lon files hbad
    refine ⟨"InvalidAOI: coordinate out of range", ?_⟩
    rw [resolveAOI_point_eq, if_neg (by
      simp only [latOK, lonOK, Bool.and_eq_true, decide_eq_true_eq]
      omega)]
  · intro s n w e files hbad
    refine ⟨"InvalidAOI: coordinate out of range", ?_⟩
    rw [resolveAOI_bbox_eq, if_neg (by
      simp only [latOK, lonOK, Bool.and_eq_true, decide_eq_true_eq]
      omega)]
  · intro path files hf
    refine ⟨"InvalidAOI: boundary file missing or unparsable", ?_⟩
    rw [resolveAOI_file_eq, hf]
  · intro path files hf
    refine ⟨"InvalidAOI: empty boundary file", ?_⟩
    rw [resolveAOI_file_eq, hf]

theorem invalid_aoi_rejected_witness :
    ((91 : ℤ) < -90 ∨ (90 : ℤ) < 91 ∨ (0 : ℤ) < -180 ∨ (180 : ℤ) < 0) ∧
    (∃ msg, resolveAOI (.point 91 0) (fun _ => none) = .error msg) ∧
    (∃ msg, resolveAOI (.file "missing.kml") (fun _ => none) = .error msg) :=
  ⟨by decide,
   invalid_aoi_rejected.1 91 0 (fun _ => none) (by decide),
   invalid_aoi_rejected.2.2.1 "missing.kml" (fun _ => none) rfl⟩

/-- C8: a boundary file containing several polygons resolves to their
union, and a footprint that intersects at least one constituent polygon is
matched (given its time window qualifies), regardless of the other
constituents. -/
theorem boundary_union_semantics :
    (∀ (path : String) (files : String → Option (List Polygon))
       (p : Polygon) (ps : List Polygon),
      files path = some (p :: ps) →
      resolveAOI (.file path) files = .ok (.area (p :: ps))) ∧
    (∀ (fp : Footprint) (ps : List Polygon) (q : Polygon),
      q ∈ ps → fp.any (fun poly => polyIntersects poly q) = true →
      footprintIntersectsAOI fp (.area ps) = true) ∧
    (∀ (r : PlanRecord) (ps : List Polygon) (q : Polygon) (t : ℤ),
      q ∈ ps → r.footprint.any (fun poly => polyIntersects poly q) = true →
      t ≤ r.window_end → matchesRecord r (.area ps) t = true) := by
  refine ⟨?_, ?_, ?_⟩
  · intro path files p ps hf
    rw [resolveAOI_file_eq, hf]
  · intro fp ps q hq hint
    simp only [footprintIntersectsAOI, List.any_eq_true]
    exact ⟨q, hq, List.any_eq_true.mp hint⟩
  · intro r ps q t hq hint ht
    simp only [matchesRecord, Bool.and_eq_true, decide_eq_true_eq]
    refine ⟨ht, ?_⟩
    simp only [footprintIntersectsAOI, List.any_eq_true]
    exact ⟨q, hq, List.any_eq_true.mp hint⟩

theorem boundary_union_semantics_witness :
    (sampleSqFar ∈ [sampleSq, sampleSqFar] ∧
     sampleFpB.any (fun poly => polyIntersects poly sampleSqFar) = true ∧
     sampleFpB.any (fun poly => polyIntersects poly sampleSq) = false ∧
     (5 : ℤ) ≤ sampleRecB.window_end) ∧
    matchesRecord sampleRecB (.area [sampleSq, sampleSqFar]) 5 = true :=
  ⟨⟨by decide, by decide, by decide, by decide⟩,
   boundary_union_semantics.2.2 sampleRecB [sampleSq, sampleSqFar]
     sampleSqFar 5 (by decide) (by decide) (by decide)⟩

/-- C9: the pipeline is a deterministic function of its explicit inputs —
with an explicitly supplied reference instant the result is independent of
the system clock (the clock enters only as the documented default), and two
invocations on identical inputs yield identical OverpassResult values. -/
theorem pipeline_deterministic (sats : List String) (docs : String → PlanDoc)
    (aoi : AOI) (t : ℤ) (clock1 clock2 : ℤ) (ref : Option ℤ) (clock : ℤ) :
    findNextOverpassAt sats docs aoi (some t) clock1 =
      findNextOverpassAt sats docs aoi (some t) clock2 ∧
    findNextOverpassAt sats docs aoi ref clock =
      findNextOverpassAt sats docs aoi ref clock :=
  ⟨rfl, rfl⟩

/-- C10: for every requested satellite identifier s the result mapping of
`find_next_overpass` contains the key s, while inside the per-satellite
dictionary the `next_collect_info` and `next_collect_geometry` keys can be
absent for some inputs (here: a plan document yielding no usable records),
so callers must retrieve them with a default rather than index directly. -/
theorem result_key_present_info_optional :
    (∀ (sats : List String) (docs : String → PlanDoc) (aoi : AOI) (t : ℤ)
       (s : String), s ∈ sats →
      (resultFor (findNextOverpass sats docs aoi t) s).isSome = true) ∧
    (∃ (sats : List String) (docs : String → PlanDoc) (aoi : AOI) (t : ℤ)
       (s : String) (R : SatResult),
      s ∈ sats ∧
      resultFor (findNextOverpass sats docs aoi t) s = some R ∧
      R.next_collect_info = none ∧ R.next_collect_geometry = none) := by
  constructor
  · intro sats docs aoi t s hs
    unfold findNextOverpass
    rw [resultFor_map, if_pos hs]
    rfl
  · refine ⟨["sentinel-1"], fun _ => [], .point ⟨0, 0⟩, 0, "sentinel-1",
      satResult "sentinel-1" [] (.point ⟨0, 0⟩) 0, by simp, ?_, rfl, rfl⟩
    unfold findNextOverpass
    rw [resultFor_map, if_pos (by simp)]

theorem result_key_present_info_optional_witness :
    "landsat" ∈ ["sentinel-1", "landsat"] ∧
    (resultFor (findNextOverpass ["sentinel-1", "landsat"]
      (fun _ => [some sampleRec1]) (.area [sampleSq]) 0) "landsat").isSome =
      true :=
  ⟨by decide,
   result_key_present_info_optional.1 ["sentinel-1", "landsat"]
     (fun _ => [some sampleRec1]) (.area [sampleSq]) 0 "landsat" (by decide)⟩

end NextPass
